import Mathlib

set_option maxHeartbeats 1000000

namespace SkyPy

/-! Shallow embedding of SkyPy/conn.py.  Python strings are modelled as lists of
characters, Python ints as Nat (all quantities in the hash code are nonnegative),
dictionaries as association lists, and fallible code as Option / Except.  The
network (requests library) and hashlib are external libraries: they appear as
explicit oracle parameters. -/

/-! ### getMac256Hash (conn.py lines 173-249) -/

/-- The hex character table of int32ToHexString (conn.py line 175). -/
def hexChars : List Char := "0123456789abcdef".toList

/-- Shallow embedding of int32ToHexString (conn.py lines 174-180): for i = 0..3 it
appends the high then the low hex nibble of byte i of n (little-endian byte order,
using only bits 0..31 of n). -/
def int32ToHexString (n : Nat) : List Char :=
  (List.range 4).foldl
    (fun hexString i =>
      hexString ++ [hexChars.getD ((n >>> (i * 8 + 4)) &&& 15) 'x',
                    hexChars.getD ((n >>> (i * 8)) &&& 15) 'x'])
    []

/-- Bits of n, least significant first, empty for 0; first argument is fuel so the
definition is structural (fuel n is always enough for value n). -/
def natBitsFuel : Nat → Nat → List Bool
  | 0, _ => []
  | fuel + 1, n => if n = 0 then [] else decide (n % 2 = 1) :: natBitsFuel fuel (n / 2)

/-- Bits of n, least significant first, empty for 0. -/
def natBits (n : Nat) : List Bool := natBitsFuel n n

/-- Python format(n, "b"): most-significant-first binary digit string, "0" for 0;
a digit character is modelled as a Bool (true = 1). -/
def pyBin (n : Nat) : List Bool :=
  if n = 0 then [false] else (natBits n).reverse

/-- Python int(s, 2) on a most-significant-first binary digit string. -/
def binToNat (s : List Bool) : Nat :=
  s.foldl (fun acc b => 2 * acc + b.toNat) 0

/-- Shallow embedding of int64Xor (conn.py lines 181-197): format both operands in
binary, left-pad the shorter string with zero digits to equal length, emit 1 exactly
at positions where the digits differ, and parse the result back as binary. -/
def int64Xor (a b : Nat) : Nat :=
  let sA := pyBin a
  let sB := pyBin b
  let diff := max sA.length sB.length - min sA.length sB.length
  let sD := List.replicate diff false
  let sA2 := if sA.length < sB.length then sD ++ sA else sA
  let sB2 := if sB.length < sA.length then sD ++ sB else sB
  binToNat (List.zipWith (fun x y => !(x == y)) sA2 sB2)

/-- Loop state of cS64: the current MAC and the running sum. -/
structure CS64State where
  qwMAC : Nat
  qwSum : Nat

/-- Shallow embedding of cS64 (conn.py lines 198-231): none when the data has fewer
than two words or odd length (Python returns None), otherwise the final pair
[qwMAC, qwSum].  The Python index pos equals 2 * i and 2 * i + 1 in iteration i. -/
def cS64 (pdwData : List Nat) (pInHash : List Nat) : Option (List Nat) :=
  if pdwData.length < 2 ∨ pdwData.length &&& 1 = 1 then none
  else
    let MODULUS := 2147483647
    let CS64_a := pInHash.getD 0 0 &&& MODULUS
    let CS64_b := pInHash.getD 1 0 &&& MODULUS
    let CS64_c := pInHash.getD 2 0 &&& MODULUS
    let CS64_d := pInHash.getD 3 0 &&& MODULUS
    let CS64_e := 242854337
    let final := (List.range (pdwData.length / 2)).foldl
      (fun st i =>
        let qwDatum := (pdwData.getD (2 * i) 0 * CS64_e) % MODULUS
        let mac1 := ((st.qwMAC + qwDatum) * CS64_a + CS64_b) % MODULUS
        let sum1 := st.qwSum + mac1
        let mac2 := ((mac1 + pdwData.getD (2 * i + 1) 0) * CS64_c + CS64_d) % MODULUS
        CS64State.mk mac2 (sum1 + mac2))
      (CS64State.mk 0 0)
    some [(final.qwMAC + CS64_b) % MODULUS, (final.qwSum + CS64_d) % MODULUS]

/-- Padded clear text (conn.py lines 232-233): challenge ++ appId extended with
8 - len % 8 ASCII 0 characters (so 8 of them when the length is already a
multiple of 8). -/
def clearText (challenge appId : List Char) : List Char :=
  let ct := challenge ++ appId
  ct ++ List.replicate (8 - ct.length % 8) '0'

/-- Shallow embedding of the word-building loop (conn.py lines 234-239): at step i a
zero is inserted at index i, then for pos = 0..3 the character of the clear text at
index pos (exactly as in the source: index pos, not 4 * i + pos) is added to slot i
scaled by 256 ^ pos. -/
def pClearText (ct : List Char) : List Nat :=
  (List.range (ct.length / 4)).foldl
    (fun l i =>
      let l1 := l.take i ++ [0] ++ l.drop i
      (List.range 4).foldl
        (fun l2 pos =>
          l2.set i (l2.getD i 0 + (ct.getD pos (Char.ofNat 0)).toNat * 256 ^ pos))
        l1)
    []

/-- Value of one hexadecimal digit character, as Python int(-, 16) reads it. -/
def hexVal (c : Char) : Option Nat :=
  if '0' ≤ c ∧ c ≤ '9' then some (c.toNat - '0'.toNat)
  else if 'a' ≤ c ∧ c ≤ 'f' then some (c.toNat - 'a'.toNat + 10)
  else if 'A' ≤ c ∧ c ≤ 'F' then some (c.toNat - 'A'.toNat + 10)
  else none

/-- Python int(hash[dpos:dpos+2], 16): the two characters at dpos and dpos + 1 read
as one hexadecimal byte (first character is the high nibble). -/
def hexPair (hash : List Char) (dpos : Nat) : Option Nat := do
  let c1 ← hash[dpos]?
  let c2 ← hash[dpos + 1]?
  let v1 ← hexVal c1
  let v2 ← hexVal c2
  pure (16 * v1 + v2)

/-- One iteration of the seed-word loop (conn.py lines 243-246): the word stored in
sha256Hash[i].  For pos = 0..3 the byte at hex position dpos = pos * 2 (exactly as
in the source: independent of i) is added scaled by 256 ^ pos. -/
def sha256Word (hash : List Char) (i : Nat) : Option Nat :=
  (List.range 4).foldlM
    (fun w pos => do
      let byte ← hexPair hash (pos * 2)
      pure (w + byte * 256 ^ pos))
    0

/-- Shallow embedding of the seed-word loop (conn.py lines 240-246). -/
def sha256HashWords (hash : List Char) : Option (List Nat) :=
  (List.range 4).mapM (fun i => sha256Word hash i)

/-- Shallow embedding of getMac256Hash (conn.py lines 173-249).  The SHA-256 call on
challenge + key is the external hashlib library; its uppercase hexadecimal digest is
taken here as the argument hashHex.  Returns none exactly where the Python code
would fail (cS64 returning None, or a digest too short or not hexadecimal). -/
def getMac256Hash (challenge appId : List Char) (hashHex : List Char) :
    Option (List Char) := do
  let ct := clearText challenge appId
  let p := pClearText ct
  let sha ← sha256HashWords hashHex
  let macHash ← cS64 p sha
  let mac0 := macHash.getD 0 0
  let mac1 := macHash.getD 1 0
  let macParts := [mac0, mac1, mac0, mac1]
  pure (List.flatten (List.zipWith (fun h m => int32ToHexString (int64Xor h m)) sha macParts))

/-! ### SkypeConnection.getRegToken (conn.py lines 116-130) -/

/-- Environment for getRegToken: for each current messages host, the response of the
POST to that host's endpoints resource, already reduced to the two header fields the
code reads (conn.py lines 125-126): the host part of the Location header (Location
rsplit by slash twice, first piece) and the Set-RegistrationToken header. -/
structure RegEnv where
  locationHost : List Char → List Char
  regToken : List Char → List Char

/-- Shallow embedding of SkypeConnection.getRegToken (conn.py lines 116-130), state
passed explicitly: the current msgsHost is the last argument and the result is the
final (msgsHost, tokens[reg]) pair.  The Python recursion has no a-priori bound, so
a fuel argument makes the definition total; none means the recursion did not settle
within the fuel. -/
def getRegTokenAux (env : RegEnv) : Nat → List Char → Option (List Char × List Char)
  | 0, _ => none
  | fuel + 1, msgsHost =>
    let location := env.locationHost msgsHost
    if location ≠ msgsHost then getRegTokenAux env fuel location
    else some (msgsHost, env.regToken msgsHost)

/-! ### SkypeConnection.call, written __call__ in the source (conn.py lines 71-86) -/

/-- An HTTP request as handed to requests.request (conn.py line 83). -/
structure HttpRequest where
  method : List Char
  url : List Char
  headers : List (List Char × List Char)
  params : Option (List Char)
  data : Option (List Char)
  json : Option (List Char)
deriving DecidableEq

/-- An HTTP response: the fields of a requests Response the code reads. -/
structure HttpResponse where
  statusCode : Nat
  respHeaders : List (List Char × List Char)
  text : List Char
deriving DecidableEq

/-- Python dict assignment headers[k] = v on an association list. -/
def setHeader (headers : List (List Char × List Char)) (k v : List Char) :
    List (List Char × List Char) :=
  if headers.any (fun p => p.1 == k) then
    headers.map (fun p => if p.1 == k then (k, v) else p)
  else headers ++ [(k, v)]

/-- Python dict lookup headers[k] on an association list. -/
def getHeader (headers : List (List Char × List Char)) (k : List Char) :
    Option (List Char) :=
  (headers.find? (fun p => p.1 == k)).map (fun p => p.2)

/-- The skype and registration tokens held by the connection (self.tokens). -/
structure Tokens where
  skype : List Char
  reg : List Char

/-- The exception raised by call: a SkypeApiException whose arguments carry a message
naming the status code, and the response object itself (conn.py line 85). -/
structure ApiError where
  status : Nat
  response : HttpResponse
deriving DecidableEq

/-- The authentication constants of SkypeConnection.Auth (conn.py line 21):
Skype = 0 and Reg = 1; Python passes None for no authentication, modelled none. -/
def AuthSkype : Nat := 0

/-- The Reg constant of SkypeConnection.Auth (conn.py line 21). -/
def AuthReg : Nat := 1

/-- Header name for Auth.Skype (conn.py line 80). -/
def skypeTokenHeader : List Char := "X-SkypeToken".toList

/-- Header name for Auth.Reg (conn.py line 82). -/
def regTokenHeader : List Char := "RegistrationToken".toList

/-- Default accepted status codes of call (conn.py line 71). -/
def defaultCodes : List Nat := [200, 201, 207]

/-- Shallow embedding of SkypeConnection.call (conn.py lines 71-86).  The network is
the oracle http; the second component of the result lists every request issued, in
order.  As in the source: attach the token header selected by auth, issue the
request, raise when the status code is not among codes, otherwise return the
response. -/
def skypeCall (http : HttpRequest → HttpResponse) (tokens : Tokens)
    (method url : List Char) (codes : List Nat) (auth : Option Nat)
    (headers : List (List Char × List Char))
    (params data json : Option (List Char)) :
    Except ApiError HttpResponse × List HttpRequest :=
  let headers2 :=
    if auth == some AuthSkype then setHeader headers skypeTokenHeader tokens.skype
    else if auth == some AuthReg then setHeader headers regTokenHeader tokens.reg
    else headers
  let req : HttpRequest := ⟨method, url, headers2, params, data, json⟩
  let resp := http req
  if resp.statusCode ∈ codes then (Except.ok resp, [req])
  else (Except.error ⟨resp.statusCode, resp⟩, [req])

/-! ### SkypeConnection.resubscribeOn (conn.py lines 26-48) -/

/-- Outcome of one invocation of a wrapped operation: a value; a SkypeApiException
carrying a Response as its second argument (the form call raises); a
SkypeApiException without one (fewer than two arguments, or a second argument that
is not a Response, conn.py line 37); or a requests ConnectionError. -/
inductive CallOutcome (α : Type) where
  | ok : α → CallOutcome α
  | apiError : ApiError → CallOutcome α
  | apiErrorNoResponse : CallOutcome α
  | connectionError : CallOutcome α

/-- Trace of one call through a resubscribeOn wrapper: the final outcome (a value,
or the exception that propagates), how many times the wrapped operation was invoked,
and how many getRegToken-then-subscribe cycles ran. -/
structure ResubTrace (α : Type) where
  outcome : CallOutcome α
  invocations : Nat
  resubCycles : Nat

/-- Shallow embedding of a resubscribeOn codes wrapper around an operation (conn.py
lines 26-48); op k is the outcome of invocation number k of the wrapped function.
A first SkypeApiException whose response status is among codes, or a first
ConnectionError, triggers one getRegToken-subscribe cycle and exactly one
reinvocation, whose outcome propagates unmodified (the reinvocation sits inside the
except handler, so nothing catches what it raises); any other first exception
propagates at once. -/
def resubscribeOn (codes : List Nat) (op : Nat → CallOutcome α) : ResubTrace α :=
  match op 0 with
  | CallOutcome.ok v => ⟨CallOutcome.ok v, 1, 0⟩
  | CallOutcome.apiError e =>
    if e.status ∈ codes then ⟨op 1, 2, 1⟩ else ⟨CallOutcome.apiError e, 1, 0⟩
  | CallOutcome.apiErrorNoResponse => ⟨CallOutcome.apiErrorNoResponse, 1, 0⟩
  | CallOutcome.connectionError => ⟨op 1, 2, 1⟩

/-! ### Session construction and the primary-token expiry (conn.py lines 49-70) -/

/-- How the constructor obtained the skype token (conn.py lines 52-67): from a cached
token file holding an expiry timestamp, or from a fresh login whose response grants
expiresIn seconds of validity (conn.py line 113: expiry = secs + expires_in). -/
inductive InitMode where
  | fromFile : Nat → InitMode
  | viaLogin : Nat → InitMode

/-- The constructor uses a cached token only when the check at conn.py line 56
(now strictly before skypeExpiry) passes at construction time t0; the login path
performs no check on the granted expiry. -/
def initAccepted (t0 : Nat) : InitMode → Bool
  | InitMode.fromFile expiry => decide (t0 < expiry)
  | InitMode.viaLogin _ => true

/-- Expiry timestamp of the skype token after construction at time t0. -/
def tokenExpiryAt (t0 : Nat) : InitMode → Nat
  | InitMode.fromFile expiry => expiry
  | InitMode.viaLogin expiresIn => t0 + expiresIn

/-- The times at which getRegToken runs in an execution: the constructor runs it at
construction time t0 (conn.py line 68), and each later resubscribe cycle (conn.py
lines 38 and 44) runs it again at whatever later time the clock has reached; no code
path re-checks the token expiry before any of these runs. -/
def regTokenRunTimes (t0 : Nat) (laterTimes : List Nat) : List Nat :=
  t0 :: laterTimes

/-! ### Auxiliary definitions used by the statements and proofs -/

/-- The uppercase hexadecimal SHA-256 digest of the empty string, a concrete digest
used as test input for the seed-word parsing. -/
def digestEmptyUpper : List Char :=
  "E3B0C44298FC1C149AFBF4C8996FB92427AE41E4649B934CA495991B7852B855".toList

/-- A lowercase hexadecimal digit: 0-9 or a-f. -/
def isLowerHexDigit (c : Char) : Prop :=
  ('0' ≤ c ∧ c ≤ '9') ∨ ('a' ≤ c ∧ c ≤ 'f')

instance (c : Char) : Decidable (isLowerHexDigit c) := by
  unfold isLowerHexDigit; infer_instance

/-- The value every slot of pClearText receives: the little-endian packing of the
characters at indices 0..3 of the clear text. -/
def clearWordVal (ct : List Char) : Nat :=
  (ct.getD 0 (Char.ofNat 0)).toNat + (ct.getD 1 (Char.ofNat 0)).toNat * 256 +
    (ct.getD 2 (Char.ofNat 0)).toNat * 65536 +
    (ct.getD 3 (Char.ofNat 0)).toNat * 16777216

/-- A least-significant-first bit list extended with false bits up to length n. -/
def padTo (l : List Bool) (n : Nat) : List Bool :=
  l ++ List.replicate (n - l.length) false

/-- Value of a least-significant-first bit list. -/
def fromLsb : List Bool → Nat
  | [] => 0
  | b :: t => b.toNat + 2 * fromLsb t

end SkyPy

namespace SkyPy

/-! ### Theorems -/

/-- Claim C1 (code bug), evaluated at the failing input challenge = "1",
appId = "": the padded clear text is "10000000"; its characters 4..7 ("0000")
differ from its characters 0..3 ("1000"), yet both produced words equal
808464433, the little-endian packing of characters 0..3 — the little-endian
packing of characters 4..7 would be 48 * (1 + 256 + 65536 + 16777216) =
808464432.  The source indexes clearText[pos] where the claim (and the spec's
bit-for-bit algorithm) requires clearText[4 * i + pos]. -/
theorem C1_words_ignore_group_index :
    pClearText (clearText ['1'] []) = [808464433, 808464433] ∧
    List.take 4 (List.drop 4 (clearText ['1'] [])) ≠
      List.take 4 (clearText ['1'] []) ∧
    Char.toNat '0' * (1 + 256 + 65536 + 16777216) = 808464432 := by
  decide

/-- Claim C2 (code bug), evaluated on a concrete digest, the uppercase SHA-256
digest of the empty string (challenge = "", key = ""): all four parsed seed words
equal 1120186595, the little-endian value of the first 8 hex characters
"E3B0C442", although hex characters 8..15 ("98FC1C14", little-endian value
337443992) differ from characters 0..7.  The source computes dpos = pos * 2 where
the claim requires dpos = 8 * i + pos * 2. -/
theorem C2_seed_words_all_first_group :
    sha256HashWords digestEmptyUpper =
      some [1120186595, 1120186595, 1120186595, 1120186595] ∧
    List.take 8 (List.drop 8 digestEmptyUpper) ≠ List.take 8 digestEmptyUpper := by
  decide

/-- Claim C3 counterexample: for challenge = "12345678" and appId = "" the length
of challenge ++ appId is already a multiple of 8, yet the padded clear text is not
equal to challenge ++ appId: the code appends eight ASCII 0 characters where the
claim says none are appended. -/
theorem C3_counterexample :
    (['1', '2', '3', '4', '5', '6', '7', '8'] ++ ([] : List Char)).length % 8 = 0 ∧
    clearText ['1', '2', '3', '4', '5', '6', '7', '8'] [] ≠
      ['1', '2', '3', '4', '5', '6', '7', '8'] ++ ([] : List Char) := by
  decide

/-- Claim C3 (amended): the padded clear text is challenge ++ appId extended on the
right with 8 - len % 8 ASCII 0 characters; the resulting length is always a
multiple of 8, and when the length of challenge ++ appId is already a multiple of
8, exactly 8 padding characters are appended (not zero). -/
theorem C3_padding_amended (challenge appId : List Char) :
    clearText challenge appId =
      (challenge ++ appId) ++
        List.replicate (8 - (challenge ++ appId).length % 8) '0' ∧
    (clearText challenge appId).length % 8 = 0 ∧
    ((challenge ++ appId).length % 8 = 0 →
      (clearText challenge appId).length = (challenge ++ appId).length + 8) := by
  refine ⟨rfl, ?_, ?_⟩ <;> simp [clearText] <;> omega

/-- Witness for the amended claim C3 at challenge = "12345678", appId = "": the
length is a multiple of 8 and exactly 8 padding characters are appended. -/
theorem C3_padding_amended_witness :
    (clearText ['1', '2', '3', '4', '5', '6', '7', '8'] []).length % 8 = 0 ∧
    ((['1', '2', '3', '4', '5', '6', '7', '8'] ++ ([] : List Char)).length % 8 = 0 ∧
      (clearText ['1', '2', '3', '4', '5', '6', '7', '8'] []).length =
        (['1', '2', '3', '4', '5', '6', '7', '8'] ++ ([] : List Char)).length + 8) :=
  ⟨(C3_padding_amended ['1', '2', '3', '4', '5', '6', '7', '8'] []).2.1,
   by decide,
   (C3_padding_amended ['1', '2', '3', '4', '5', '6', '7', '8'] []).2.2 (by decide)⟩

/-- Soundness of the getRegToken recursion: a returned pair always consists of a
host whose response Location host equals that host, together with that response's
registration token. -/
theorem getRegTokenAux_sound (env : RegEnv) :
    ∀ fuel host h tok, getRegTokenAux env fuel host = some (h, tok) →
      env.locationHost h = h ∧ tok = env.regToken h := by
  intro fuel
  induction fuel with
  | zero => intro host h tok hx; simp [getRegTokenAux] at hx
  | succ n ih =>
    intro host h tok hx
    rw [getRegTokenAux] at hx
    by_cases hc : env.locationHost host ≠ host
    · rw [if_pos hc] at hx
      exact ih (env.locationHost host) h tok hx
    · rw [if_neg hc] at hx
      push_neg at hc
      cases hx
      exact ⟨hc, rfl⟩

/-- Claim C6: if the host derived from the Location header equals the current host,
getRegToken stores that response's registration token and terminates with no
retry; if it differs, the stored host becomes the new value and the whole step
re-runs against it; consequently any recorded token comes from a response whose
Location host equals the finally stored host. -/
theorem C6_getRegToken_redirect (env : RegEnv) (fuel : Nat) (host : List Char) :
    (env.locationHost host = host →
      getRegTokenAux env (fuel + 1) host = some (host, env.regToken host)) ∧
    (env.locationHost host ≠ host →
      getRegTokenAux env (fuel + 1) host =
        getRegTokenAux env fuel (env.locationHost host)) ∧
    (∀ h tok, getRegTokenAux env fuel host = some (h, tok) →
      env.locationHost h = h ∧ tok = env.regToken h) := by
  refine ⟨fun hc => ?_, fun hc => ?_, getRegTokenAux_sound env fuel host⟩ <;>
    rw [getRegTokenAux] <;> simp [hc]

/-- Witness for claim C6 with a constant environment sending every host to a and
every token to t: a call at host a terminates at once with a's token; a call at
host b re-runs at host a; and the returned pair satisfies the soundness clause. -/
theorem C6_getRegToken_redirect_witness :
    (getRegTokenAux (RegEnv.mk (fun _ => ['a']) (fun _ => ['t'])) 1 ['a'] =
      some (['a'], ['t'])) ∧
    (getRegTokenAux (RegEnv.mk (fun _ => ['a']) (fun _ => ['t'])) 2 ['b'] =
      getRegTokenAux (RegEnv.mk (fun _ => ['a']) (fun _ => ['t'])) 1
        ((RegEnv.mk (fun _ => ['a']) (fun _ => ['t'])).locationHost ['b'])) ∧
    ((RegEnv.mk (fun _ => ['a']) (fun _ => ['t'])).locationHost ['a'] = ['a'] ∧
      ['t'] = (RegEnv.mk (fun _ => ['a']) (fun _ => ['t'])).regToken ['a']) :=
  ⟨(C6_getRegToken_redirect (RegEnv.mk (fun _ => ['a']) (fun _ => ['t'])) 0 ['a']).1
      rfl,
   (C6_getRegToken_redirect (RegEnv.mk (fun _ => ['a']) (fun _ => ['t'])) 1 ['b']).2.1
      (by decide),
   (C6_getRegToken_redirect (RegEnv.mk (fun _ => ['a']) (fun _ => ['t'])) 1 ['a']).2.2
      ['a'] ['t'] (by decide)⟩

/-- Looking up a key just assigned with setHeader yields the assigned value. -/
theorem getHeader_setHeader (hs : List (List Char × List Char)) (k v : List Char) :
    getHeader (setHeader hs k v) k = some v := by
  unfold setHeader
  by_cases h : hs.any (fun p => p.1 == k)
  · rw [if_pos h]
    revert h
    induction hs with
    | nil => intro h; simp at h
    | cons p t ih =>
      intro h
      by_cases hp : (p.1 == k) = true
      · have hfp : (if (p.1 == k) = true then (k, v) else p) = (k, v) := if_pos hp
        rw [getHeader, List.map_cons, hfp, List.find?_cons_of_pos]
        · rfl
        · simp
      · have hfp : (if (p.1 == k) = true then (k, v) else p) = p := if_neg hp
        have ht : t.any (fun p => p.1 == k) = true := by
          simpa [List.any_cons, hp] using h
        rw [getHeader, List.map_cons, hfp, List.find?_cons_of_neg]
        · exact ih ht
        · exact hp
  · rw [if_neg h]
    have hnone : hs.find? (fun p => p.1 == k) = none := by
      rw [List.find?_eq_none]
      intro x hx hxk
      exact h (List.any_eq_true.2 ⟨x, hx, hxk⟩)
    rw [getHeader, List.find?_append, hnone]
    simp

/-- First component of an if whose branches share their second component. -/
theorem ite_shared_snd {β γ : Type} (c : Prop) (inst : Decidable c) (x y : β)
    (l : γ) : (if c then (x, l) else (y, l)).2 = l := by
  split <;> rfl

/-- Claim C7: every invocation of call issues exactly one HTTP request; the
X-SkypeToken header carries the skype token when auth is Auth.Skype and the
RegistrationToken header carries the registration token when auth is Auth.Reg; the
call returns the response when its status is among the accepted codes and raises a
SkypeApiException carrying the status and the response itself otherwise; no retry
happens at this layer. -/
theorem C7_call_contract (http : HttpRequest → HttpResponse) (tokens : Tokens)
    (method url : List Char) (codes : List Nat) (auth : Option Nat)
    (headers : List (List Char × List Char)) (params data json : Option (List Char)) :
    (skypeCall http tokens method url codes auth headers params data json).2.length
      = 1 ∧
    ∀ req ∈ (skypeCall http tokens method url codes auth headers params data json).2,
      (auth = some AuthSkype →
        getHeader req.headers skypeTokenHeader = some tokens.skype) ∧
      (auth = some AuthReg →
        getHeader req.headers regTokenHeader = some tokens.reg) ∧
      ((http req).statusCode ∈ codes →
        (skypeCall http tokens method url codes auth headers params data json).1 =
          Except.ok (http req)) ∧
      ((http req).statusCode ∉ codes →
        (skypeCall http tokens method url codes auth headers params data json).1 =
          Except.error (ApiError.mk (http req).statusCode (http req))) := by
  constructor
  · show (skypeCall http tokens method url codes auth headers params data json).2.length
      = 1
    unfold skypeCall
    rw [ite_shared_snd]
    rfl
  · intro req hreq
    have hreq2 : req ∈ [(HttpRequest.mk method url
        (if auth == some AuthSkype then setHeader headers skypeTokenHeader tokens.skype
         else if auth == some AuthReg then setHeader headers regTokenHeader tokens.reg
         else headers) params data json)] := by
      have := hreq
      unfold skypeCall at this
      rw [ite_shared_snd] at this
      exact this
    have hreqEq := List.mem_singleton.1 hreq2
    refine ⟨fun hA => ?_, fun hA => ?_, fun hin => ?_, fun hout => ?_⟩
    · rw [hreqEq, hA]
      simp [getHeader_setHeader]
    · rw [hreqEq, hA]
      have hne : ((some AuthReg == some AuthSkype) : Bool) = false := by decide
      simp [hne, getHeader_setHeader]
    · unfold skypeCall
      dsimp only
      rw [← hreqEq, if_pos hin]
    · unfold skypeCall
      dsimp only
      rw [← hreqEq, if_neg hout]

/-- Witness for claim C7 at two concrete oracles: a 200 response under Auth.Skype
(one request, skype token attached, response returned) and a 404 response under
Auth.Reg (registration token attached, error carrying status and response). -/
theorem C7_call_contract_witness :
    (skypeCall (fun _ => HttpResponse.mk 200 [] []) (Tokens.mk ['s'] ['r'])
        ['G'] ['u'] defaultCodes (some AuthSkype) [] none none none).2.length = 1 ∧
    getHeader (setHeader [] skypeTokenHeader ['s']) skypeTokenHeader = some ['s'] ∧
    (skypeCall (fun _ => HttpResponse.mk 200 [] []) (Tokens.mk ['s'] ['r'])
        ['G'] ['u'] defaultCodes (some AuthSkype) [] none none none).1 =
      Except.ok (HttpResponse.mk 200 [] []) ∧
    getHeader (setHeader [] regTokenHeader ['r']) regTokenHeader = some ['r'] ∧
    (skypeCall (fun _ => HttpResponse.mk 404 [] []) (Tokens.mk ['s'] ['r'])
        ['G'] ['u'] defaultCodes (some AuthReg) [] none none none).1 =
      Except.error (ApiError.mk 404 (HttpResponse.mk 404 [] [])) :=
  ⟨(C7_call_contract (fun _ => HttpResponse.mk 200 [] []) (Tokens.mk ['s'] ['r'])
      ['G'] ['u'] defaultCodes (some AuthSkype) [] none none none).1,
   ((C7_call_contract (fun _ => HttpResponse.mk 200 [] []) (Tokens.mk ['s'] ['r'])
      ['G'] ['u'] defaultCodes (some AuthSkype) [] none none none).2
      (HttpRequest.mk ['G'] ['u'] (setHeader [] skypeTokenHeader ['s'])
        none none none) (by decide)).1 rfl,
   ((C7_call_contract (fun _ => HttpResponse.mk 200 [] []) (Tokens.mk ['s'] ['r'])
      ['G'] ['u'] defaultCodes (some AuthSkype) [] none none none).2
      (HttpRequest.mk ['G'] ['u'] (setHeader [] skypeTokenHeader ['s'])
        none none none) (by decide)).2.2.1 (by decide),
   ((C7_call_contract (fun _ => HttpResponse.mk 404 [] []) (Tokens.mk ['s'] ['r'])
      ['G'] ['u'] defaultCodes (some AuthReg) [] none none none).2
      (HttpRequest.mk ['G'] ['u'] (setHeader [] regTokenHeader ['r'])
        none none none) (by decide)).2.1 rfl,
   ((C7_call_contract (fun _ => HttpResponse.mk 404 [] []) (Tokens.mk ['s'] ['r'])
      ['G'] ['u'] defaultCodes (some AuthReg) [] none none none).2
      (HttpRequest.mk ['G'] ['u'] (setHeader [] regTokenHeader ['r'])
        none none none) (by decide)).2.2.2 (by decide)⟩

/-- Claim C8: the resubscribeOn wrapper invokes the operation once on success; on a
first SkypeApiException whose status is in codes, or a first connection failure, it
runs exactly one resubscribe cycle, re-invokes exactly once and propagates the
second outcome unmodified; a first SkypeApiException with a status not in codes
propagates at once with no cycle and no retry; the operation never runs more than
twice. -/
theorem C8_resubscribe_contract {α : Type} (codes : List Nat)
    (op : Nat → CallOutcome α) :
    (∀ v, op 0 = CallOutcome.ok v →
      resubscribeOn codes op = ⟨CallOutcome.ok v, 1, 0⟩) ∧
    (∀ e, op 0 = CallOutcome.apiError e → e.status ∈ codes →
      resubscribeOn codes op = ⟨op 1, 2, 1⟩) ∧
    (∀ e, op 0 = CallOutcome.apiError e → e.status ∉ codes →
      resubscribeOn codes op = ⟨CallOutcome.apiError e, 1, 0⟩) ∧
    (op 0 = CallOutcome.connectionError →
      resubscribeOn codes op = ⟨op 1, 2, 1⟩) ∧
    (resubscribeOn codes op).invocations ≤ 2 := by
  refine ⟨fun v hv => ?_, fun e he hs => ?_, fun e he hs => ?_, fun hc => ?_, ?_⟩
  · simp [resubscribeOn, hv]
  · simp [resubscribeOn, he, hs]
  · simp [resubscribeOn, he, hs]
  · simp [resubscribeOn, hc]
  · cases hop : op 0 <;> simp [resubscribeOn, hop] <;> split <;> simp

/-- Witness for claim C8, exercising all four cases with concrete operations over
codes = [404]: immediate success; a 404 failure then success; a 500 failure that
propagates at once; and a connection failure then success. -/
theorem C8_resubscribe_contract_witness :
    (resubscribeOn [404] (fun _ => CallOutcome.ok 5) =
      ⟨CallOutcome.ok 5, 1, 0⟩) ∧
    (resubscribeOn [404]
        (fun k => if k = 0 then
          CallOutcome.apiError (ApiError.mk 404 (HttpResponse.mk 404 [] []))
          else CallOutcome.ok 7) =
      ⟨(fun k => if k = 0 then
          CallOutcome.apiError (ApiError.mk 404 (HttpResponse.mk 404 [] []))
          else CallOutcome.ok (7 : Nat)) 1, 2, 1⟩) ∧
    (resubscribeOn [404]
        (fun _ => (CallOutcome.apiError
          (ApiError.mk 500 (HttpResponse.mk 500 [] [])) : CallOutcome Nat)) =
      ⟨CallOutcome.apiError (ApiError.mk 500 (HttpResponse.mk 500 [] [])), 1, 0⟩) ∧
    (resubscribeOn [404]
        (fun k => if k = 0 then CallOutcome.connectionError
          else CallOutcome.ok (9 : Nat)) =
      ⟨(fun k => if k = 0 then CallOutcome.connectionError
          else CallOutcome.ok (9 : Nat)) 1, 2, 1⟩) ∧
    (resubscribeOn [404] (fun _ => CallOutcome.ok 5)).invocations ≤ 2 :=
  ⟨(C8_resubscribe_contract [404] (fun _ => CallOutcome.ok 5)).1 5 rfl,
   (C8_resubscribe_contract [404] _).2.1
      (ApiError.mk 404 (HttpResponse.mk 404 [] [])) rfl (by decide),
   (C8_resubscribe_contract [404] _).2.2.1
      (ApiError.mk 500 (HttpResponse.mk 500 [] [])) rfl (by decide),
   (C8_resubscribe_contract [404] _).2.2.2.1 rfl,
   (C8_resubscribe_contract [404] (fun _ => CallOutcome.ok 5)).2.2.2.2⟩

/-- Claim C9 counterexample: a session constructed at time 0 from a cached token
expiring at time 1 (accepted, since 0 < 1) whose clock then reaches time 5 when a
resubscribe cycle fires: getRegToken runs at time 5 with the token expiry 1 in the
past, refuting the invariant that every AcquireRegistrationToken run happens while
the primary token expiry is strictly in the future. -/
theorem C9_counterexample :
    initAccepted 0 (InitMode.fromFile 1) = true ∧
    List.Pairwise (fun a b => a ≤ b) (regTokenRunTimes 0 [5]) ∧
    ¬ (∀ t ∈ regTokenRunTimes 0 [5], t < tokenExpiryAt 0 (InitMode.fromFile 1)) := by
  refine ⟨rfl, ?_, ?_⟩ <;> decide

/-- Claim C9 (amended): the only expiry check is the one at construction: a cached
token is accepted only when its expiry is strictly later than the construction
time, so the constructor-time getRegToken after a cached-token load runs with an
unexpired token; no later run re-checks the expiry. -/
theorem C9_expiry_checked_at_load (t0 expiry : Nat)
    (h : initAccepted t0 (InitMode.fromFile expiry) = true) :
    t0 < tokenExpiryAt t0 (InitMode.fromFile expiry) := by
  simpa [initAccepted, tokenExpiryAt] using h

/-- Witness for the amended claim C9 at construction time 0 with cached expiry 1. -/
theorem C9_expiry_checked_at_load_witness :
    initAccepted 0 (InitMode.fromFile 1) = true ∧
    0 < tokenExpiryAt 0 (InitMode.fromFile 1) :=
  ⟨by decide, C9_expiry_checked_at_load 0 1 (by decide)⟩

/-- Setting the element just past a replicate block replaces the appended value. -/
theorem replicate_append_set (k W v x : Nat) :
    (List.replicate k W ++ [v]).set k x = List.replicate k W ++ [x] := by
  induction k with
  | zero => rfl
  | succ n ih => simpa [List.replicate_succ] using ih

/-- Reading the element just past a replicate block yields the appended value. -/
theorem replicate_append_getD (k W v : Nat) :
    (List.replicate k W ++ [v]).getD k 0 = v := by
  induction k with
  | zero => rfl
  | succ n ih => simpa [List.replicate_succ] using ih

/-- Structure of the word-building loop: every slot receives the same value, the
little-endian packing of characters 0..3 of the clear text. -/
theorem pClearText_eq (ct : List Char) :
    pClearText ct = List.replicate (ct.length / 4) (clearWordVal ct) := by
  unfold pClearText
  have hr : List.range 4 = [0, 1, 2, 3] := rfl
  rw [hr]
  generalize ct.length / 4 = n
  induction n with
  | zero => rfl
  | succ k ih =>
    rw [List.range_succ, List.foldl_append, ih, List.foldl_cons, List.foldl_nil]
    dsimp only
    rw [List.take_replicate, min_self, List.drop_replicate, Nat.sub_self]
    rw [List.foldl_cons, List.foldl_cons, List.foldl_cons, List.foldl_cons,
      List.foldl_nil]
    rw [List.replicate_zero, List.append_nil, replicate_append_getD, replicate_append_set,
      replicate_append_getD, replicate_append_set, replicate_append_getD,
      replicate_append_set, replicate_append_getD, replicate_append_set]
    rw [List.replicate_succ']
    congr 1
    simp [clearWordVal]

/-- The number of produced words is a quarter of the padded length. -/
theorem pClearText_length (ct : List Char) :
    (pClearText ct).length = ct.length / 4 := by
  rw [pClearText_eq]
  simp

/-- Length of the padded clear text. -/
theorem clearText_length (challenge appId : List Char) :
    (clearText challenge appId).length =
      (challenge ++ appId).length + (8 - (challenge ++ appId).length % 8) := by
  simp [clearText]
  omega

/-- hexPair succeeds on in-range positions of an all-hex character list. -/
theorem hexPair_isSome (hash : List Char) (dpos : Nat) (h1 : dpos + 1 < hash.length)
    (hhex : ∀ c ∈ hash, (hexVal c).isSome) : (hexPair hash dpos).isSome := by
  have hd : dpos < hash.length := by omega
  obtain ⟨v1, hv1⟩ := Option.isSome_iff_exists.1 (hhex hash[dpos] (List.getElem_mem hd))
  obtain ⟨v2, hv2⟩ :=
    Option.isSome_iff_exists.1 (hhex hash[dpos + 1] (List.getElem_mem h1))
  simp [hexPair, List.getElem?_eq_getElem hd, List.getElem?_eq_getElem h1, hv1, hv2]

/-- Every seed word parses successfully on an all-hex digest of length at least 8. -/
theorem sha256Word_isSome (hash : List Char) (i : Nat) (hlen : 8 ≤ hash.length)
    (hhex : ∀ c ∈ hash, (hexVal c).isSome) : (sha256Word hash i).isSome := by
  obtain ⟨b0, h0⟩ :=
    Option.isSome_iff_exists.1 (hexPair_isSome hash 0 (by omega) hhex)
  obtain ⟨b1, h1⟩ :=
    Option.isSome_iff_exists.1 (hexPair_isSome hash 2 (by omega) hhex)
  obtain ⟨b2, h2⟩ :=
    Option.isSome_iff_exists.1 (hexPair_isSome hash 4 (by omega) hhex)
  obtain ⟨b3, h3⟩ :=
    Option.isSome_iff_exists.1 (hexPair_isSome hash 6 (by omega) hhex)
  have hr : List.range 4 = [0, 1, 2, 3] := rfl
  rw [sha256Word, hr]
  simp [List.foldlM_cons, List.foldlM_nil, h0, h1, h2, h3]

/-- The parsed seed-word list is four copies of one and the same word. -/
theorem sha256HashWords_shape (hash : List Char) (hlen : 8 ≤ hash.length)
    (hhex : ∀ c ∈ hash, (hexVal c).isSome) :
    ∃ w, sha256HashWords hash = some [w, w, w, w] := by
  obtain ⟨w, hw⟩ := Option.isSome_iff_exists.1 (sha256Word_isSome hash 0 hlen hhex)
  have hw1 : sha256Word hash 1 = some w := hw
  have hw2 : sha256Word hash 2 = some w := hw
  have hw3 : sha256Word hash 3 = some w := hw
  have hr : List.range 4 = [0, 1, 2, 3] := rfl
  refine ⟨w, ?_⟩
  rw [sha256HashWords, hr]
  simp [List.mapM, List.mapM.loop, hw, hw1, hw2, hw3]

/-- cS64 succeeds, and with a two-element result, whenever the data has even
length at least 2. -/
theorem cS64_some (p h : List Nat) (h2 : 2 ≤ p.length) (heven : p.length % 2 = 0) :
    ∃ a b, cS64 p h = some [a, b] := by
  have hc : ¬ (p.length < 2 ∨ p.length &&& 1 = 1) := by
    rw [Nat.and_one_is_mod]
    omega
  rw [cS64, if_neg hc]
  exact ⟨_, _, rfl⟩

/-- Full shape of a successful getMac256Hash run on an all-hex digest. -/
theorem getMac256Hash_some (challenge appId hashHex : List Char)
    (hlen : 8 ≤ hashHex.length) (hhex : ∀ c ∈ hashHex, (hexVal c).isSome) :
    ∃ w a b, sha256HashWords hashHex = some [w, w, w, w] ∧
      cS64 (pClearText (clearText challenge appId)) [w, w, w, w] = some [a, b] ∧
      getMac256Hash challenge appId hashHex =
        some (List.flatten [int32ToHexString (int64Xor w a),
          int32ToHexString (int64Xor w b), int32ToHexString (int64Xor w a),
          int32ToHexString (int64Xor w b)]) := by
  obtain ⟨w, hw⟩ := sha256HashWords_shape hashHex hlen hhex
  have hplen := pClearText_length (clearText challenge appId)
  have hct := clearText_length challenge appId
  have h2 : 2 ≤ (pClearText (clearText challenge appId)).length := by omega
  have heven : (pClearText (clearText challenge appId)).length % 2 = 0 := by omega
  obtain ⟨a, b, hab⟩ := cS64_some (pClearText (clearText challenge appId))
    [w, w, w, w] h2 heven
  refine ⟨w, a, b, hw, hab, ?_⟩
  simp [getMac256Hash, hw, hab]

/-- Claim C5: cS64 returns None exactly when its data has fewer than two words or
odd length; the padding rule makes that precondition violation unreachable for
every challenge and appId (in particular it occurs only when both are empty,
vacuously, since it never occurs at all — even then the code pads to 2 words),
and compute succeeds on every input. -/
theorem C5_malformed_input (pdwData pInHash : List Nat)
    (challenge appId hashHex : List Char) (hlen : hashHex.length = 64)
    (hhex : ∀ c ∈ hashHex, (hexVal c).isSome) :
    (cS64 pdwData pInHash = none ↔
      pdwData.length < 2 ∨ pdwData.length % 2 = 1) ∧
    ¬ ((pClearText (clearText challenge appId)).length < 2 ∨
        (pClearText (clearText challenge appId)).length % 2 = 1) ∧
    (getMac256Hash challenge appId hashHex).isSome := by
  refine ⟨?_, ?_, ?_⟩
  · by_cases hc : pdwData.length < 2 ∨ pdwData.length &&& 1 = 1
    · have hc2 : pdwData.length < 2 ∨ pdwData.length % 2 = 1 := by
        rwa [Nat.and_one_is_mod] at hc
      rw [cS64, if_pos hc]
      simp [hc2]
    · have hc2 : ¬ (pdwData.length < 2 ∨ pdwData.length % 2 = 1) := by
        rwa [Nat.and_one_is_mod] at hc
      rw [cS64, if_neg hc]
      simp [hc2]
  · have hplen := pClearText_length (clearText challenge appId)
    have hct := clearText_length challenge appId
    omega
  · obtain ⟨w, a, b, _, _, hmac⟩ :=
      getMac256Hash_some challenge appId hashHex (by omega) hhex
    simp [hmac]

/-- Witness for claim C5 at challenge = "x", appId = "", with the concrete
uppercase SHA-256 digest of the empty string as the digest input. -/
theorem C5_malformed_input_witness :
    digestEmptyUpper.length = 64 ∧
    ((cS64 [] [] = none ↔ ([] : List Nat).length < 2 ∨ ([] : List Nat).length % 2 = 1) ∧
      ¬ ((pClearText (clearText ['x'] [])).length < 2 ∨
          (pClearText (clearText ['x'] [])).length % 2 = 1) ∧
      (getMac256Hash ['x'] [] digestEmptyUpper).isSome) :=
  ⟨by decide, C5_malformed_input [] [] ['x'] [] digestEmptyUpper (by decide) (by decide)⟩

/-- The hex table entry at any index at most 15 is a lowercase hex digit. -/
theorem hexChars_getD_mem (m : Nat) (hm : m ≤ 15) :
    isLowerHexDigit (hexChars.getD m 'x') := by
  interval_cases m <;> decide

/-- int32ToHexString always emits exactly 8 characters. -/
theorem int32ToHexString_length (n : Nat) : (int32ToHexString n).length = 8 := by
  have hr : List.range 4 = [0, 1, 2, 3] := rfl
  rw [int32ToHexString, hr]
  simp [List.foldl_cons, List.foldl_nil]

/-- Every character emitted by int32ToHexString is a lowercase hex digit. -/
theorem int32ToHexString_hex (n : Nat) :
    ∀ c ∈ int32ToHexString n, isLowerHexDigit c := by
  have hr : List.range 4 = [0, 1, 2, 3] := rfl
  rw [int32ToHexString, hr]
  simp only [List.foldl_cons, List.foldl_nil]
  intro c hc
  simp only [List.nil_append, List.cons_append, List.append_assoc, List.mem_cons,
    List.mem_append, List.not_mem_nil, or_false] at hc
  rcases hc with rfl | rfl | rfl | rfl | rfl | rfl | rfl | rfl <;>
    exact hexChars_getD_mem _ Nat.and_le_right

/-- Claim C4: compute is deterministic and, on an all-hex digest of length 64 (the
shape hashlib always produces), returns a string of exactly 32 characters, each a
lowercase hexadecimal digit.  The claim's precondition (non-empty padded input of
even word length at least 2) holds for every input by the padding rule, so no
further hypothesis on challenge or appId is needed. -/
theorem C4_compute_hex_output (challenge appId hashHex : List Char)
    (hlen : hashHex.length = 64) (hhex : ∀ c ∈ hashHex, (hexVal c).isSome) :
    (∀ c2 a2 h2, c2 = challenge → a2 = appId → h2 = hashHex →
      getMac256Hash c2 a2 h2 = getMac256Hash challenge appId hashHex) ∧
    ∃ s, getMac256Hash challenge appId hashHex = some s ∧ s.length = 32 ∧
      ∀ c ∈ s, isLowerHexDigit c := by
  refine ⟨fun c2 a2 h2 e1 e2 e3 => by rw [e1, e2, e3], ?_⟩
  obtain ⟨w, a, b, _, _, hmac⟩ :=
    getMac256Hash_some challenge appId hashHex (by omega) hhex
  refine ⟨_, hmac, ?_, ?_⟩
  · simp [int32ToHexString_length]
  · intro c hc
    rw [List.mem_flatten] at hc
    obtain ⟨l, hl, hcl⟩ := hc
    simp only [List.mem_cons, List.not_mem_nil, or_false] at hl
    rcases hl with rfl | rfl | rfl | rfl <;> exact int32ToHexString_hex _ c hcl

/-- natBitsFuel of 0 is empty regardless of fuel. -/
theorem natBitsFuel_zero (f : Nat) : natBitsFuel f 0 = [] := by
  cases f <;> rfl

/-- natBitsFuel does not depend on the fuel once the fuel covers the value. -/
theorem natBitsFuel_congr : ∀ f g n : Nat, n ≤ f → n ≤ g →
    natBitsFuel f n = natBitsFuel g n := by
  intro f
  induction f with
  | zero =>
    intro g n hf hg
    have hn : n = 0 := by omega
    subst hn
    rw [natBitsFuel_zero, natBitsFuel_zero]
  | succ fl ih =>
    intro g n hf hg
    by_cases hn : n = 0
    · subst hn
      rw [natBitsFuel_zero, natBitsFuel_zero]
    · cases g with
      | zero => omega
      | succ gl =>
        rw [natBitsFuel, natBitsFuel, if_neg hn, if_neg hn]
        congr 1
        exact ih gl (n / 2) (by omega) (by omega)

/-- Unfolding of natBits on a positive number. -/
theorem natBits_cons (n : Nat) (h : n ≠ 0) :
    natBits n = decide (n % 2 = 1) :: natBits (n / 2) := by
  obtain ⟨m, rfl⟩ : ∃ m, n = m + 1 := ⟨n - 1, by omega⟩
  show natBitsFuel (m + 1) (m + 1) = _
  rw [natBitsFuel, if_neg h]
  congr 1
  exact natBitsFuel_congr m ((m + 1) / 2) ((m + 1) / 2) (by omega) (by omega)

/-- natBits is empty exactly on 0. -/
theorem natBits_nil_iff (n : Nat) : natBits n = [] ↔ n = 0 := by
  constructor
  · intro h
    by_contra hn
    rw [natBits_cons n hn] at h
    simp at h
  · intro h
    subst h
    rfl

/-- Halving drops one bit from the length bound. -/
theorem natBits_div2_le (a n : Nat) (h : (natBits a).length ≤ n + 1) :
    (natBits (a / 2)).length ≤ n := by
  by_cases ha : a = 0
  · subst ha
    exact Nat.zero_le n
  · rw [natBits_cons a ha] at h
    simp only [List.length_cons] at h
    omega

/-- One-bit decomposition of natural xor: the xor of the parities plus twice the
xor of the halves. -/
theorem xor_bit_decomp (a b : Nat) :
    a ^^^ b = (!(decide (a % 2 = 1) == decide (b % 2 = 1))).toNat
      + 2 * (a / 2 ^^^ b / 2) := by
  apply Nat.eq_of_testBit_eq
  intro i
  cases i with
  | zero =>
    rw [Nat.testBit_xor, Nat.testBit_zero, Nat.testBit_zero, Nat.testBit_zero]
    rcases Nat.mod_two_eq_zero_or_one a with ha | ha <;>
      rcases Nat.mod_two_eq_zero_or_one b with hb | hb <;>
        simp [ha, hb, Nat.add_mul_mod_self_left]
  | succ k =>
    have hc : ((!(decide (a % 2 = 1) == decide (b % 2 = 1))).toNat
        + 2 * (a / 2 ^^^ b / 2)) / 2 = a / 2 ^^^ b / 2 := by
      cases hbool : (!(decide (a % 2 = 1) == decide (b % 2 = 1))) <;> simp <;> omega
    rw [Nat.testBit_xor, Nat.testBit_add_one, Nat.testBit_add_one,
      Nat.testBit_add_one, hc, ← Nat.testBit_xor]

/-- Uniform head-tail unfolding of a zero-padded bit list. -/
theorem padTo_natBits_succ (a n : Nat) (h : (natBits a).length ≤ n + 1) :
    padTo (natBits a) (n + 1) = decide (a % 2 = 1) :: padTo (natBits (a / 2)) n := by
  by_cases ha : a = 0
  · subst ha
    have h0 : natBits 0 = ([] : List Bool) := rfl
    show padTo (natBits 0) (n + 1) = decide (0 % 2 = 1) :: padTo (natBits 0) n
    rw [h0]
    simp [padTo, List.replicate_succ]
  · rw [natBits_cons a ha]
    simp only [padTo, List.cons_append, List.length_cons]
    have he : n + 1 - ((natBits (a / 2)).length + 1) = n - (natBits (a / 2)).length := by
      omega
    rw [he]

/-- Key lemma: the position-wise difference of two equally zero-padded bit lists,
read least-significant first, is the xor of the two numbers. -/
theorem fromLsb_zip_padTo : ∀ n a b : Nat,
    (natBits a).length ≤ n → (natBits b).length ≤ n →
    fromLsb (List.zipWith (fun x y => !(x == y)) (padTo (natBits a) n)
      (padTo (natBits b) n)) = a ^^^ b := by
  intro n
  induction n with
  | zero =>
    intro a b ha hb
    have ha0 : a = 0 := (natBits_nil_iff a).1 (List.length_eq_zero.1 (by omega))
    have hb0 : b = 0 := (natBits_nil_iff b).1 (List.length_eq_zero.1 (by omega))
    subst ha0
    subst hb0
    rw [Nat.xor_self]
    rfl
  | succ k ih =>
    intro a b ha hb
    rw [padTo_natBits_succ a k ha, padTo_natBits_succ b k hb, List.zipWith_cons_cons,
      fromLsb, ih (a / 2) (b / 2) (natBits_div2_le a k ha) (natBits_div2_le b k hb)]
    exact (xor_bit_decomp a b).symm

/-- Reading a most-significant-first digit list equals reading its reversal least
significant first. -/
theorem binToNat_reverse (l : List Bool) : binToNat l.reverse = fromLsb l := by
  induction l with
  | nil => rfl
  | cons c t ih =>
    rw [List.reverse_cons]
    unfold binToNat
    rw [List.foldl_append, List.foldl_cons, List.foldl_nil]
    have ihx : List.foldl (fun acc b => 2 * acc + b.toNat) 0 t.reverse = fromLsb t := ih
    rw [ihx, fromLsb]
    omega

/-- Reversal distributes over zipWith on lists of equal length. -/
theorem zipWith_reverse_of_length (f : Bool → Bool → Bool) :
    ∀ l1 l2 : List Bool, l1.length = l2.length →
      (List.zipWith f l1 l2).reverse = List.zipWith f l1.reverse l2.reverse := by
  intro l1
  induction l1 with
  | nil =>
    intro l2 h
    cases l2 with
    | nil => rfl
    | cons b s => simp at h
  | cons a t ih =>
    intro l2 h
    cases l2 with
    | nil => simp at h
    | cons b s =>
      have hls : t.length = s.length := by simpa using h
      rw [List.zipWith_cons_cons, List.reverse_cons, List.reverse_cons,
        List.reverse_cons, List.zipWith_append _ _ _ _ _ (by simp [hls]), ih s hls]
      rfl

/-- Extending the padding target appends further zero bits. -/
theorem padTo_extend (l : List Bool) (m k : Nat) (h : l.length ≤ m) :
    padTo l m ++ List.replicate k false = padTo l (m + k) := by
  unfold padTo
  rw [List.append_assoc, ← List.replicate_add]
  congr 2
  omega

/-- The reversal of a formatted binary string is the zero-padded bit list of the
number, padded to the string's own length. -/
theorem pyBin_reverse (a : Nat) :
    (pyBin a).reverse = padTo (natBits a) (pyBin a).length := by
  by_cases ha : a = 0
  · subst ha
    rfl
  · rw [pyBin, if_neg ha, List.reverse_reverse]
    simp [padTo]

/-- The bit list is never longer than the formatted binary string. -/
theorem natBits_le_pyBin_length (a : Nat) :
    (natBits a).length ≤ (pyBin a).length := by
  by_cases ha : a = 0
  · subst ha
    exact Nat.zero_le _
  · rw [pyBin, if_neg ha, List.length_reverse]

/-- Reduction of the padded-string xor reading to the key lemma. -/
theorem binToNat_zip_eq (a b n : Nat) (X Y : List Bool)
    (hX : X.reverse = padTo (natBits a) n) (hY : Y.reverse = padTo (natBits b) n)
    (hXY : X.length = Y.length)
    (hna : (natBits a).length ≤ n) (hnb : (natBits b).length ≤ n) :
    binToNat (List.zipWith (fun x y => !(x == y)) X Y) = a ^^^ b := by
  have h1 : binToNat (List.zipWith (fun x y => !(x == y)) X Y) =
      fromLsb ((List.zipWith (fun x y => !(x == y)) X Y).reverse) := by
    rw [← binToNat_reverse, List.reverse_reverse]
  rw [h1, zipWith_reverse_of_length _ X Y hXY, hX, hY]
  exact fromLsb_zip_padTo n a b hna hnb

/-- Claim C10: the binary-string xor helper int64Xor — format both operands in
binary, left-pad the shorter with zero bits, emit 1 exactly where the bits
differ — computes exactly the standard bitwise xor on all nonnegative integers. -/
theorem C10_int64Xor_is_xor (a b : Nat) : int64Xor a b = a ^^^ b := by
  have hA := pyBin_reverse a
  have hB := pyBin_reverse b
  have hlA := natBits_le_pyBin_length a
  have hlB := natBits_le_pyBin_length b
  simp only [int64Xor]
  rcases Nat.lt_trichotomy (pyBin a).length (pyBin b).length with hlt | heq | hgt
  · rw [if_pos hlt, if_neg (by omega)]
    refine binToNat_zip_eq a b (pyBin b).length _ _ ?_ hB ?_ (by omega) (by omega)
    · rw [List.reverse_append, List.reverse_replicate, hA, padTo_extend _ _ _ hlA]
      congr 1
      omega
    · simp only [List.length_append, List.length_replicate]
      omega
  · rw [if_neg (by omega), if_neg (by omega)]
    refine binToNat_zip_eq a b (pyBin b).length _ _ ?_ hB heq (by omega) (by omega)
    rw [hA, heq]
  · rw [if_neg (by omega), if_pos hgt]
    refine binToNat_zip_eq a b (pyBin a).length _ _ hA ?_ ?_ (by omega) (by omega)
    · rw [List.reverse_append, List.reverse_replicate, hB, padTo_extend _ _ _ hlB]
      congr 1
      omega
    · simp only [List.length_append, List.length_replicate]
      omega

/-- Witness for claim C4 at challenge = "x", appId = "", on the concrete uppercase
SHA-256 digest of the empty string. -/
theorem C4_compute_hex_output_witness :
    digestEmptyUpper.length = 64 ∧
    getMac256Hash ['x'] [] digestEmptyUpper = getMac256Hash ['x'] [] digestEmptyUpper ∧
    ∃ s, getMac256Hash ['x'] [] digestEmptyUpper = some s ∧ s.length = 32 ∧
      ∀ c ∈ s, isLowerHexDigit c :=
  ⟨by decide,
   (C4_compute_hex_output ['x'] [] digestEmptyUpper (by decide) (by decide)).1
      ['x'] [] digestEmptyUpper rfl rfl rfl,
   (C4_compute_hex_output ['x'] [] digestEmptyUpper (by decide) (by decide)).2⟩

end SkyPy
